import Mathlib

/-!
Verification of the vocabulary capture-and-sync engine of this repository
(the file lang/lang.py) against its design document.

Modelling conventions, chosen to mirror the Python source:

- A Python dict is insertion-ordered, so the vocabulary store is embedded as an
  ordered association list from lookup key to entry.  The JSON codec of the
  standard library is treated as a faithful inverse pair, so the persisted
  document is represented by the ordered association list it encodes.
- Python truthiness is modelled explicitly where the source relies on it:
  a level value (int or str) is falsy when it is the integer 0 or the empty
  string, a note id is falsy when it is absent or 0, a primary field is falsy
  when absent or empty.
- The AI enrichment call and the AnkiConnect endpoint are external services;
  they enter the model as explicit outcome parameters (an Except value for
  enrichment, a per-iteration outcome oracle plus a deck-name state for
  AnkiConnect).  The projection of entry fields onto Anki card fields is not
  modelled: no claim constrains the card payload, only which calls are made
  and what is written back into the store.
- Each command function returns the store as the command persists it, applying
  save_vocab_data exactly where the source calls it.
-/

/-- A Python value that is either an int or a str, as stored in the Level
field of an entry (cmd_new stores int(args.level) when it parses, the raw
string otherwise). -/
inductive PyVal where
  | vInt (n : Int)
  | vStr (s : String)
deriving DecidableEq, Repr

/-- Python truthiness of a level value: the integer 0 and the empty string
are falsy. -/
def PyVal.truthy : PyVal → Bool
  | .vInt n => n ≠ 0
  | .vStr s => s ≠ ""

/-- Python str() of a level value. -/
def PyVal.str : PyVal → String
  | .vInt n => toString n
  | .vStr s => s

/-- One vocabulary entry, with the fields of the dict built by cmd_new plus
the legacy level fields read by cmd_sync.  Optional fields model dict.get
returning None when the field is absent. -/
structure Entry where
  primary : String
  translation : String
  exampleText : String
  exampleTranslation : String
  grammar : String
  phonetic : Option String
  level : Option PyVal
  hskLevel : Option PyVal
  cefrLevel : Option PyVal
  ankiNoteID : Option Nat
  added : Option String
deriving DecidableEq, Repr

/-- The vocabulary store: an insertion-ordered mapping from lookup key to
entry, exactly a Python dict. -/
abbrev Store : Type := List (String × Entry)

/-- Python membership and indexing: the value at a key, first match. -/
def dictLookup (s : Store) (k : String) : Option Entry :=
  match s with
  | [] => none
  | (k', e) :: rest => if k' = k then some e else dictLookup rest k

/-- Python dict assignment: replace in place when the key exists (keeping its
position), append otherwise. -/
def dictSet (s : Store) (k : String) (v : Entry) : Store :=
  match s with
  | [] => [(k, v)]
  | (k', e) :: rest => if k' = k then (k, v) :: rest else (k', e) :: dictSet rest k v

/-- Python dict.pop: remove the entry at a key. -/
def dictPop (s : Store) (k : String) : Store :=
  List.filter (fun kv => kv.1 ≠ k) s

/-- The list of keys of the store. -/
def storeKeys (s : Store) : List String := s.map Prod.fst

/-- The list of entry values of the store, dict.values(). -/
def storeValues (s : Store) : List Entry := s.map Prod.snd

/-- The sort key used by save_vocab_data: item[1].get(added, 1970-01-01). -/
def sortKey (kv : String × Entry) : String := kv.2.added.getD "1970-01-01"

/-- Lexicographic at-most on character lists by code point, the comparison
Python uses between strings. -/
def charListLe : List Char → List Char → Bool
  | [], _ => true
  | _ :: _, [] => false
  | a :: as, b :: bs => if a < b then true else if b < a then false else charListLe as bs

/-- Python string comparison: lexicographic by code point. -/
def strLe (a b : String) : Bool := charListLe a.data b.data

theorem charListLe_total : ∀ as bs : List Char,
    charListLe as bs = true ∨ charListLe bs as = true := by
  intro as
  induction as with
  | nil => intro bs; left; rfl
  | cons a as ih =>
    intro bs
    cases bs with
    | nil => right; rfl
    | cons b bs =>
      by_cases hab : a < b
      · left; simp [charListLe, hab]
      · by_cases hba : b < a
        · right; simp [charListLe, hba]
        · have h := ih bs
          simp [charListLe, hab, hba]
          exact h

theorem charListLe_trans : ∀ as bs cs : List Char,
    charListLe as bs = true → charListLe bs cs = true → charListLe as cs = true := by
  intro as
  induction as with
  | nil => intro bs cs _ _; rfl
  | cons a as ih =>
    intro bs cs h1 h2
    cases bs with
    | nil => simp [charListLe] at h1
    | cons b bs =>
      cases cs with
      | nil => simp [charListLe] at h2
      | cons c cs =>
        by_cases hab : a < b
        · by_cases hbc : b < c
          · simp [charListLe, lt_trans hab hbc]
          · by_cases hcb : c < b
            · simp [charListLe, hbc, hcb] at h2
            · have hbc' : b = c := le_antisymm (not_lt.mp hcb) (not_lt.mp hbc)
              subst hbc'
              simp [charListLe, hab]
        · by_cases hba : b < a
          · simp [charListLe, hab, hba] at h1
          · have hab' : a = b := le_antisymm (not_lt.mp hba) (not_lt.mp hab)
            subst hab'
            by_cases hac : a < c
            · simp [charListLe, hac]
            · by_cases hca : c < a
              · simp [charListLe, hac, hca] at h2
              · simp [charListLe, hab, hac, hca] at h1 h2 ⊢
                exact ih bs cs h1 h2

theorem strLe_total (a b : String) : strLe a b = true ∨ strLe b a = true :=
  charListLe_total a.data b.data

theorem strLe_trans {a b c : String} (h1 : strLe a b = true) (h2 : strLe b c = true) :
    strLe a c = true :=
  charListLe_trans a.data b.data c.data h1 h2

/-- The descending-by-added ordering used by save_vocab_data: a comes before b
when the key of b is at most the key of a.  Under this relation a stable sort
is exactly the Python sorted(..., reverse=True). -/
abbrev entryGe (a b : String × Entry) : Prop := strLe (sortKey b) (sortKey a) = true

instance : IsTotal (String × Entry) entryGe := ⟨fun a b => strLe_total (sortKey b) (sortKey a)⟩

instance : IsTrans (String × Entry) entryGe := ⟨fun _ _ _ h₁ h₂ => strLe_trans h₂ h₁⟩

instance : DecidableRel entryGe :=
  fun a b => inferInstanceAs (Decidable (strLe (sortKey b) (sortKey a) = true))

/-- save_vocab_data: the persisted document is the full mapping re-sorted by
the added timestamp, descending, with a stable sort (Python sorted with
reverse=True on an insertion-ordered dict). -/
def save_vocab_data (s : Store) : Store := List.insertionSort entryGe s

/-- The observable states of the vocabulary file. -/
inductive FileState where
  | missing
  | malformed
  | doc (d : Store)
deriving DecidableEq

/-- load_vocab_data: a missing file or a JSON decode error yields the empty
mapping; otherwise the document is returned as loaded. -/
def load_vocab_data : FileState → Store
  | .missing => []
  | .malformed => []
  | .doc d => d

/-- The sequence of file states a concurrent reader can observe while
save_vocab_data runs: the previous content, then the truncated file (open with
mode w truncates before json.dump streams the document), then the full new
document.  A truncated or partially written file is not valid JSON, hence the
malformed state. -/
def save_states (old : FileState) (s : Store) : List FileState :=
  [old, .malformed, .doc (save_vocab_data s)]

/-- Modelled from the spec: the claimed atomicity contract, that a reader can
only ever observe the previous document or the new one. -/
def atomicToReaders (old : FileState) (s : Store) : Prop :=
  ∀ st ∈ save_states old s, st = old ∨ st = .doc (save_vocab_data s)

instance (old : FileState) (s : Store) : Decidable (atomicToReaders old s) :=
  inferInstanceAs (Decidable (∀ st ∈ save_states old s, _ ∨ _))

/-- A store used in concrete counterexamples. -/
def demoEntry : Entry :=
  { primary := "bonjour", translation := "hello", exampleText := "", exampleTranslation := "",
    grammar := "", phonetic := none, level := some (.vStr "A1"), hskLevel := none,
    cefrLevel := none, ankiNoteID := none, added := some "2024-01-01T10:00:00" }

theorem save_sorted (s : Store) : List.Sorted entryGe (save_vocab_data s) :=
  List.sorted_insertionSort entryGe s

theorem save_perm (s : Store) : List.Perm (save_vocab_data s) s :=
  List.perm_insertionSort entryGe s

theorem save_idem (s : Store) : save_vocab_data (save_vocab_data s) = save_vocab_data s :=
  List.Sorted.insertionSort_eq (save_sorted s)

/-- The structured payload parsed from the AI response, one optional field per
configured logical field name (ai_data.get on each). -/
structure AiPayload where
  primary : Option String
  translation : Option String
  exampleText : Option String
  exampleTranslation : Option String
  grammar : Option String
  phonetic : Option String
deriving DecidableEq, Repr

/-- The single undo slot, the JSON object written by save_last_action.  Both
fields are read with dict.get in cmd_undo, so both are optional here. -/
structure LastAction where
  type : Option String
  key : Option String
deriving DecidableEq, Repr

/-- enrich_with_ai: fails when no API key is configured (Python truthiness:
None or the empty string), or when the service response does not decode as a
structured payload (response = none covers the network error and the JSON
parse error, which the source re-raises alike); otherwise it returns the
parsed payload. -/
def enrich_with_ai (apiKey : Option String) (response : Option AiPayload) :
    Except String AiPayload :=
  match apiKey with
  | none => .error "OPENAI_API_KEY not found."
  | some k =>
    if k = "" then .error "OPENAI_API_KEY not found."
    else
      match response with
      | none => .error "AI enrichment failed"
      | some p => .ok p

/-- Python str.lower, modelled as the character-wise lowercase map (the two
agree on the inputs considered here). -/
def pyLower (s : String) : String := String.mk (s.data.map Char.toLower)

/-- The lookup key of a primary value: lowercase iff case_insensitive_keys
(the source reads the flag with default True; the resolved flag is a
parameter here). -/
def lookupKeyOf (caseInsensitive : Bool) (primaryKey : String) : String :=
  if caseInsensitive then pyLower primaryKey else primaryKey

theorem pyLower_ne_empty {s : String} (h : s ≠ "") : pyLower s ≠ "" := by
  intro he
  apply h
  have hd : (pyLower s).data = [] := congrArg String.data he
  have : s.data.map Char.toLower = [] := hd
  have hnil : s.data = [] := List.map_eq_nil_iff.mp this
  cases s with
  | mk data =>
    simp only at hnil
    rw [hnil]

theorem lookupKeyOf_ne_empty (ci : Bool) {pk : String} (h : pk ≠ "") :
    lookupKeyOf ci pk ≠ "" := by
  unfold lookupKeyOf
  cases ci with
  | false => simpa using h
  | true => simpa using pyLower_ne_empty h

/-- The entry dict built by cmd_new from the AI payload: every enrichment
field defaults to the empty string, Level is the current level, AnkiNoteID is
None, added is the current timestamp; the phonetic field is present only when
the profile declares one. -/
def mkEntry (hasPhonetic : Bool) (primaryKey : String) (ai : AiPayload)
    (currentLevel : PyVal) (now : String) : Entry :=
  { primary := primaryKey
    translation := ai.translation.getD ""
    exampleText := ai.exampleText.getD ""
    exampleTranslation := ai.exampleTranslation.getD ""
    grammar := ai.grammar.getD ""
    phonetic := if hasPhonetic then some (ai.phonetic.getD "") else none
    level := some currentLevel
    hskLevel := none
    cefrLevel := none
    ankiNoteID := none
    added := some now }

/-- What cmd_new reported. -/
inductive NewResult where
  | added
  | alreadyExists
  | errored
deriving DecidableEq, Repr

/-- cmd_new on a loaded store and the current undo slot.  The enrichment
outcome is passed in (the try block turns any raised error into a printed
message and an early return).  Returns the store as persisted, the undo slot
as persisted, and what was reported.  In the alreadyExists branch and in every
error branch the source returns before save_vocab_data and save_last_action
run, so store and slot pass through unchanged. -/
def cmd_new (caseInsensitive : Bool) (hasPhonetic : Bool) (force : Bool)
    (currentLevel : PyVal) (now : String) (enrich : Except String AiPayload)
    (store : Store) (slot : Option LastAction) :
    Store × Option LastAction × NewResult :=
  match enrich with
  | .error _ => (store, slot, .errored)
  | .ok ai =>
    match ai.primary with
    | none => (store, slot, .errored)
    | some primaryKey =>
      if primaryKey = "" then (store, slot, .errored)
      else
        let lookupKey := lookupKeyOf caseInsensitive primaryKey
        if (dictLookup store lookupKey).isSome ∧ ¬ force then
          (store, slot, .alreadyExists)
        else
          let entry := mkEntry hasPhonetic primaryKey ai currentLevel now
          (save_vocab_data (dictSet store lookupKey entry),
           some { type := some "new", key := some lookupKey }, .added)

/-- What cmd_undo reported. -/
inductive UndoResult where
  | nothingToUndo
  | noKey
  | staleCleared
  | undone
deriving DecidableEq, Repr

/-- cmd_undo on a loaded store and the undo slot.  An empty slot or one whose
type is not new is reported as nothing to undo and the slot is left as it is;
a new action without a truthy key is an error that also leaves the slot; a
new action whose key is in the store removes it, persists and clears the
slot; a key no longer in the store warns and clears the slot. -/
def cmd_undo (store : Store) (slot : Option LastAction) :
    Store × Option LastAction × UndoResult :=
  match slot with
  | none => (store, slot, .nothingToUndo)
  | some a =>
    if a.type ≠ some "new" then (store, slot, .nothingToUndo)
    else
      match a.key with
      | none => (store, slot, .noKey)
      | some k =>
        if k = "" then (store, slot, .noKey)
        else if (dictLookup store k).isSome then
          (save_vocab_data (dictPop store k), none, .undone)
        else
          (store, none, .staleCleared)

/-- The slice of a loaded language profile that cmd_sync reads.  The deck
prefix is a required config key on the level-partitioned path; deckName is
read with dict.get and may be absent. -/
structure SyncProfile where
  useLevels : Bool
  deckPref : String
  deckName : Option String
  special : List (String × String)
  defaultLevel : PyVal
deriving DecidableEq, Repr

/-- Python or-chain over optional values: the first truthy value, else the
default (None and falsy values are skipped alike). -/
def orChain (xs : List (Option PyVal)) (dflt : PyVal) : PyVal :=
  match xs with
  | [] => dflt
  | none :: rest => orChain rest dflt
  | some v :: rest => if v.truthy then v else orChain rest dflt

/-- Lookup in the special-level table (a JSON object, so keys are strings). -/
def lookupSpecial : List (String × String) → String → Option String
  | [], _ => none
  | (k, v) :: rest, s => if k = s then some v else lookupSpecial rest s

/-- The level cmd_sync attributes to an entry on the level-partitioned path:
the Python or-chain over Level, HSKLevel, CEFRLevel and the profile default,
so a falsy stored level (the integer 0 or the empty string) falls through. -/
def resolveLevel (p : SyncProfile) (w : Entry) : PyVal :=
  orChain [w.level, w.hskLevel, w.cefrLevel] p.defaultLevel

/-- Deck-name resolution of cmd_sync: on the level-partitioned path the deck
is prefix ++ str(level) unless str(level) is a key of the special table, in
which case it is prefix ++ special name; on the flat path the deck is the
configured deck name (default: the prefix), with a :: special suffix when
str(level) is a key of the special table. -/
def resolveDeck (p : SyncProfile) (w : Entry) : String :=
  if p.useLevels then
    let level := resolveLevel p w
    match lookupSpecial p.special level.str with
    | some name => p.deckPref ++ name
    | none => p.deckPref ++ level.str
  else
    let level := orChain [w.level] p.defaultLevel
    match lookupSpecial p.special level.str with
    | some name => (p.deckName.getD p.deckPref) ++ "::" ++ name
    | none => p.deckName.getD p.deckPref

/-- Python truthiness of word.get(AnkiNoteID): falsy when absent or 0, the
condition selecting the entries still to sync. -/
def ankiFalsy : Option Nat → Bool
  | none => true
  | some n => n == 0

/-- The work list of cmd_sync: the entries of the store, in store order,
whose AnkiNoteID is falsy. -/
def wordsToSync (s : Store) : List Entry :=
  (storeValues s).filter (fun w => ankiFalsy w.ankiNoteID)

/-- The outcome of the per-entry external calls of one loop iteration: the
try block raises (err), find_notes returns an existing note id (found, the
update branch), or find_notes returns no notes and add_note returns a fresh
id (notFound, the create branch). -/
inductive ExtOutcome where
  | err
  | found (noteId : Nat)
  | notFound (noteId : Nat)
deriving DecidableEq, Repr

/-- The externally visible AnkiConnect mutations cmd_sync performs. -/
inductive ExtCall where
  | createDeck (name : String)
  | updateNote (noteId : Nat)
  | addNote (deck : String) (noteId : Nat)
deriving DecidableEq, Repr

/-- The tallies printed by cmd_sync. -/
structure SyncCounts where
  created : Nat
  updated : Nat
  failed : Nat
deriving DecidableEq, Repr

/-- The mutable state of the sync loop: the in-memory store, the deck names
the service reports, the tallies and the trace of external mutations. -/
structure LoopSt where
  vocab : Store
  decks : List String
  counts : SyncCounts
  trace : List ExtCall
deriving DecidableEq, Repr

/-- The write-back of cmd_sync after a successful create or update: scan
vocab_data.items() in order and set AnkiNoteID on the first entry whose
primary field equals the synced primary value, then break. -/
def setFirstMatching (s : Store) (primaryValue : String) (noteId : Nat) : Store :=
  match s with
  | [] => []
  | (k, e) :: rest =>
    if e.primary = primaryValue then (k, { e with ankiNoteID := some noteId }) :: rest
    else (k, e) :: setFirstMatching rest primaryValue noteId

/-- The loop of cmd_sync over the snapshot work list.  Each iteration
resolves the deck, creates it only when the existence check on the current
deck list says absent, then runs the find/update/add calls, whose outcome the
oracle gives per iteration index; a raised error increments failed and the
loop continues with the next entry, a success increments updated or created
and writes the note id back into the store. -/
def syncLoop (p : SyncProfile) (oracle : Nat → ExtOutcome) :
    List Entry → Nat → LoopSt → LoopSt
  | [], _, st => st
  | w :: ws, i, st =>
    let deckName := resolveDeck p w
    let decks := if st.decks.contains deckName then st.decks else st.decks ++ [deckName]
    let trace :=
      if st.decks.contains deckName then st.trace
      else st.trace ++ [ExtCall.createDeck deckName]
    let primaryValue := w.primary
    match oracle i with
    | .err =>
      syncLoop p oracle ws (i + 1)
        { st with decks := decks, trace := trace,
                  counts := { st.counts with failed := st.counts.failed + 1 } }
    | .found noteId =>
      syncLoop p oracle ws (i + 1)
        { vocab := setFirstMatching st.vocab primaryValue noteId
          decks := decks
          counts := { st.counts with updated := st.counts.updated + 1 }
          trace := trace ++ [ExtCall.updateNote noteId] }
    | .notFound noteId =>
      syncLoop p oracle ws (i + 1)
        { vocab := setFirstMatching st.vocab primaryValue noteId
          decks := decks
          counts := { st.counts with created := st.counts.created + 1 }
          trace := trace ++ [ExtCall.addNote deckName noteId] }

/-- The result of one cmd_sync invocation. -/
structure SyncOut where
  store : Store
  decks : List String
  counts : SyncCounts
  trace : List ExtCall
  saves : Nat
deriving DecidableEq, Repr

/-- cmd_sync: bail out without saving when the AnkiConnect connection fails,
when the store is empty, or when every entry already has a note id; otherwise
run the loop over the snapshot work list and persist the store exactly once
after the loop, however many entries failed. -/
def cmd_sync (p : SyncProfile) (oracle : Nat → ExtOutcome) (decks₀ : List String)
    (connected : Bool) (s : Store) : SyncOut :=
  if ¬ connected then ⟨s, decks₀, ⟨0, 0, 0⟩, [], 0⟩
  else if s.isEmpty then ⟨s, decks₀, ⟨0, 0, 0⟩, [], 0⟩
  else
    let ws := wordsToSync s
    if ws.isEmpty then ⟨s, decks₀, ⟨0, 0, 0⟩, [], 0⟩
    else
      let final := syncLoop p oracle ws 0 ⟨s, decks₀, ⟨0, 0, 0⟩, []⟩
      ⟨save_vocab_data final.vocab, final.decks, final.counts, final.trace, 1⟩

/-- The primary values of the store entries, in store order. -/
def primariesOf (s : Store) : List String :=
  (storeValues s).map Entry.primary

/-- Index of the first work-list entry with a given primary value. -/
def findPrimaryIdx (primaryValue : String) : List Entry → Option Nat
  | [] => none
  | w :: ws =>
    if w.primary = primaryValue then some 0
    else (findPrimaryIdx primaryValue ws).map (· + 1)

/-- The effect of one external outcome on the matched entry. -/
def applyOutcomeEntry (o : ExtOutcome) (e : Entry) : Entry :=
  match o with
  | .err => e
  | .found noteId => { e with ankiNoteID := some noteId }
  | .notFound noteId => { e with ankiNoteID := some noteId }

/-- The entry as it stands after the whole loop, as a function of the work
list and the oracle: the outcome at the index of the first work-list entry
sharing its primary value, if any. -/
def syncedEntry (oracle : Nat → ExtOutcome) (ws : List Entry) (i : Nat) (e : Entry) : Entry :=
  match findPrimaryIdx e.primary ws with
  | none => e
  | some j => applyOutcomeEntry (oracle (i + j)) e

/-- The store transformations the loop performs, without counts and decks. -/
def applyOutcome (oracle : Nat → ExtOutcome) : List Entry → Nat → Store → Store
  | [], _, v => v
  | w :: ws, i, v =>
    match oracle i with
    | .err => applyOutcome oracle ws (i + 1) v
    | .found noteId => applyOutcome oracle ws (i + 1) (setFirstMatching v w.primary noteId)
    | .notFound noteId => applyOutcome oracle ws (i + 1) (setFirstMatching v w.primary noteId)

/-- Pointwise update used to restate setFirstMatching under distinct
primaries. -/
def updIfPrimary (primaryValue : String) (noteId : Nat) (kv : String × Entry) :
    String × Entry :=
  if kv.2.primary = primaryValue then (kv.1, { kv.2 with ankiNoteID := some noteId }) else kv

/-- Componentwise sum of tallies. -/
def SyncCounts.add (a b : SyncCounts) : SyncCounts :=
  ⟨a.created + b.created, a.updated + b.updated, a.failed + b.failed⟩

/-- The tallies determined by the oracle alone. -/
def tallies (oracle : Nat → ExtOutcome) : List Entry → Nat → SyncCounts
  | [], _ => ⟨0, 0, 0⟩
  | _ :: ws, i =>
    let t := tallies oracle ws (i + 1)
    match oracle i with
    | .err => { t with failed := t.failed + 1 }
    | .found _ => { t with updated := t.updated + 1 }
    | .notFound _ => { t with created := t.created + 1 }

/-- The sublist of the work list whose iterations raised. -/
def failedWords (oracle : Nat → ExtOutcome) : List Entry → Nat → List Entry
  | [], _ => []
  | w :: ws, i =>
    match oracle i with
    | .err => w :: failedWords oracle ws (i + 1)
    | .found _ => failedWords oracle ws (i + 1)
    | .notFound _ => failedWords oracle ws (i + 1)

theorem syncLoop_vocab (p : SyncProfile) (oracle : Nat → ExtOutcome) :
    ∀ (ws : List Entry) (i : Nat) (st : LoopSt),
      (syncLoop p oracle ws i st).vocab = applyOutcome oracle ws i st.vocab := by
  intro ws
  induction ws with
  | nil => intro i st; rfl
  | cons w ws ih =>
    intro i st
    cases h : oracle i <;> simp [syncLoop, applyOutcome, h, ih]

theorem syncLoop_counts (p : SyncProfile) (oracle : Nat → ExtOutcome) :
    ∀ (ws : List Entry) (i : Nat) (st : LoopSt),
      (syncLoop p oracle ws i st).counts = st.counts.add (tallies oracle ws i) := by
  intro ws
  induction ws with
  | nil => intro i st; simp [syncLoop, tallies, SyncCounts.add]
  | cons w ws ih =>
    intro i st
    cases h : oracle i <;>
      simp [syncLoop, tallies, h, ih, SyncCounts.add, SyncCounts.mk.injEq] <;> omega

theorem tallies_total (oracle : Nat → ExtOutcome) :
    ∀ (ws : List Entry) (i : Nat),
      (tallies oracle ws i).created + (tallies oracle ws i).updated
        + (tallies oracle ws i).failed = ws.length := by
  intro ws
  induction ws with
  | nil => intro i; simp [tallies]
  | cons w ws ih =>
    intro i
    have hih := ih (i + 1)
    cases h : oracle i <;> simp [tallies, h] <;> omega

theorem failedWords_length (oracle : Nat → ExtOutcome) :
    ∀ (ws : List Entry) (i : Nat),
      (failedWords oracle ws i).length = (tallies oracle ws i).failed := by
  intro ws
  induction ws with
  | nil => intro i; simp [failedWords, tallies]
  | cons w ws ih =>
    intro i
    cases h : oracle i <;> simp [failedWords, tallies, h, ih]

theorem failedWords_nil_of_no_err (oracle : Nat → ExtOutcome)
    (hnoerr : ∀ n, oracle n ≠ .err) :
    ∀ (ws : List Entry) (i : Nat), failedWords oracle ws i = [] := by
  intro ws
  induction ws with
  | nil => intro i; rfl
  | cons w ws ih =>
    intro i
    cases h : oracle i with
    | err => exact absurd h (hnoerr i)
    | found noteId => simp [failedWords, h, ih]
    | notFound noteId => simp [failedWords, h, ih]

theorem failedWords_falsy (oracle : Nat → ExtOutcome) :
    ∀ (ws : List Entry) (i : Nat),
      (∀ w ∈ ws, ankiFalsy w.ankiNoteID = true) →
      ∀ w ∈ failedWords oracle ws i, ankiFalsy w.ankiNoteID = true := by
  intro ws
  induction ws with
  | nil => intro i _ w hw; simp [failedWords] at hw
  | cons v ws ih =>
    intro i hall w hw
    cases h : oracle i <;> simp [failedWords, h] at hw
    · rcases hw with rfl | hw
      · exact hall w (by simp)
      · exact ih (i + 1) (fun x hx => hall x (by simp [hx])) w hw
    · exact ih (i + 1) (fun x hx => hall x (by simp [hx])) w hw
    · exact ih (i + 1) (fun x hx => hall x (by simp [hx])) w hw

theorem setFirstMatching_map_eq_self (primaryValue : String) (noteId : Nat) :
    ∀ s : Store, (∀ kv ∈ s, kv.2.primary ≠ primaryValue) →
      s.map (updIfPrimary primaryValue noteId) = s := by
  intro s
  induction s with
  | nil => intro _; rfl
  | cons kv rest ih =>
    intro h
    have hkv : kv.2.primary ≠ primaryValue := h kv (by simp)
    simp only [List.map_cons, updIfPrimary, if_neg hkv]
    rw [ih (fun x hx => h x (by simp [hx]))]

theorem primariesOf_cons (k : String) (e : Entry) (rest : Store) :
    primariesOf ((k, e) :: rest) = e.primary :: primariesOf rest := by
  simp [primariesOf, storeValues]

theorem setFirstMatching_eq_map (primaryValue : String) (noteId : Nat) :
    ∀ s : Store, (primariesOf s).Nodup →
      setFirstMatching s primaryValue noteId = s.map (updIfPrimary primaryValue noteId) := by
  intro s
  induction s with
  | nil => intro _; rfl
  | cons kv rest ih =>
    obtain ⟨k, e⟩ := kv
    intro hnodup
    rw [primariesOf_cons] at hnodup
    have hnd : (primariesOf rest).Nodup := (List.nodup_cons.mp hnodup).2
    have hnm : e.primary ∉ primariesOf rest := (List.nodup_cons.mp hnodup).1
    by_cases h : e.primary = primaryValue
    · simp only [setFirstMatching, List.map_cons, updIfPrimary]
      rw [if_pos h, if_pos h]
      rw [setFirstMatching_map_eq_self primaryValue noteId rest]
      intro x hx hxe
      apply hnm
      rw [← h] at hxe
      rw [← hxe]
      simp only [primariesOf, storeValues, List.map_map]
      exact List.mem_map_of_mem (Entry.primary ∘ Prod.snd) hx
    · simp only [setFirstMatching, List.map_cons, updIfPrimary]
      rw [if_neg h, if_neg h, ih hnd]

theorem primariesOf_setFirstMatching (primaryValue : String) (noteId : Nat) :
    ∀ s : Store, primariesOf (setFirstMatching s primaryValue noteId) = primariesOf s := by
  intro s
  induction s with
  | nil => rfl
  | cons kv rest ih =>
    obtain ⟨k, e⟩ := kv
    by_cases h : e.primary = primaryValue
    · simp [setFirstMatching, primariesOf, storeValues, if_pos h]
    · simp only [setFirstMatching, if_neg h]
      rw [primariesOf_cons, primariesOf_cons, ih]

theorem findPrimaryIdx_none_of_not_mem (primaryValue : String) :
    ∀ ws : List Entry, primaryValue ∉ ws.map Entry.primary →
      findPrimaryIdx primaryValue ws = none := by
  intro ws
  induction ws with
  | nil => intro _; rfl
  | cons w ws ih =>
    intro h
    have h1 : w.primary ≠ primaryValue := by
      intro he; exact h (by simp [← he])
    have h2 : primaryValue ∉ ws.map Entry.primary := by
      intro hm; exact h (by simp [hm])
    simp [findPrimaryIdx, h1, ih h2]

theorem syncedEntry_shift (oracle : Nat → ExtOutcome) (w : Entry) (ws : List Entry)
    (i : Nat) (e : Entry) (h : e.primary ≠ w.primary) :
    syncedEntry oracle (w :: ws) i e = syncedEntry oracle ws (i + 1) e := by
  have hne : w.primary ≠ e.primary := fun he => h he.symm
  simp only [syncedEntry, findPrimaryIdx, if_neg hne]
  cases hj : findPrimaryIdx e.primary ws with
  | none => simp
  | some j =>
    simp only [Option.map_some']
    have : i + (j + 1) = i + 1 + j := by omega
    rw [this]

theorem syncedEntry_head (oracle : Nat → ExtOutcome) (w : Entry) (ws : List Entry)
    (i : Nat) (e : Entry) (hp : e.primary = w.primary) :
    syncedEntry oracle (w :: ws) i e = applyOutcomeEntry (oracle i) e := by
  simp only [syncedEntry, findPrimaryIdx, if_pos hp.symm]
  simp

theorem applyOutcome_eq_map (oracle : Nat → ExtOutcome) :
    ∀ (ws : List Entry) (i : Nat) (s : Store),
      (primariesOf s).Nodup → (ws.map Entry.primary).Nodup →
      applyOutcome oracle ws i s = s.map (fun kv => (kv.1, syncedEntry oracle ws i kv.2)) := by
  intro ws
  induction ws with
  | nil =>
    intro i s _ _
    simp [applyOutcome, syncedEntry, findPrimaryIdx]
  | cons w ws ih =>
    intro i s hs hws
    have hwnm : w.primary ∉ ws.map Entry.primary := (List.nodup_cons.mp hws).1
    have hwsnd : (ws.map Entry.primary).Nodup := (List.nodup_cons.mp hws).2
    cases h : oracle i with
    | err =>
      simp only [applyOutcome, h]
      rw [ih (i + 1) s hs hwsnd]
      apply List.map_congr_left
      intro kv _
      by_cases hp : kv.2.primary = w.primary
      · rw [syncedEntry_head oracle w ws i kv.2 hp, h]
        have : findPrimaryIdx kv.2.primary ws = none :=
          findPrimaryIdx_none_of_not_mem kv.2.primary ws (by rw [hp]; exact hwnm)
        simp [syncedEntry, this, applyOutcomeEntry]
      · rw [syncedEntry_shift oracle w ws i kv.2 hp]
    | found noteId =>
      simp only [applyOutcome, h]
      rw [ih (i + 1) (setFirstMatching s w.primary noteId)
        (by rw [primariesOf_setFirstMatching]; exact hs) hwsnd]
      rw [setFirstMatching_eq_map w.primary noteId s hs, List.map_map]
      apply List.map_congr_left
      intro kv _
      by_cases hp : kv.2.primary = w.primary
      · simp only [Function.comp, updIfPrimary, if_pos hp]
        rw [syncedEntry_head oracle w ws i kv.2 hp, h]
        have : findPrimaryIdx kv.2.primary ws = none :=
          findPrimaryIdx_none_of_not_mem kv.2.primary ws (by rw [hp]; exact hwnm)
        simp [syncedEntry, this, applyOutcomeEntry]
      · simp only [Function.comp, updIfPrimary, if_neg hp]
        rw [syncedEntry_shift oracle w ws i kv.2 hp]
    | notFound noteId =>
      simp only [applyOutcome, h]
      rw [ih (i + 1) (setFirstMatching s w.primary noteId)
        (by rw [primariesOf_setFirstMatching]; exact hs) hwsnd]
      rw [setFirstMatching_eq_map w.primary noteId s hs, List.map_map]
      apply List.map_congr_left
      intro kv _
      by_cases hp : kv.2.primary = w.primary
      · simp only [Function.comp, updIfPrimary, if_pos hp]
        rw [syncedEntry_head oracle w ws i kv.2 hp, h]
        have : findPrimaryIdx kv.2.primary ws = none :=
          findPrimaryIdx_none_of_not_mem kv.2.primary ws (by rw [hp]; exact hwnm)
        simp [syncedEntry, this, applyOutcomeEntry]
      · simp only [Function.comp, updIfPrimary, if_neg hp]
        rw [syncedEntry_shift oracle w ws i kv.2 hp]

theorem map_synced_filter (oracle : Nat → ExtOutcome)
    (hids : ∀ n noteId, oracle n = .found noteId ∨ oracle n = .notFound noteId → noteId ≠ 0) :
    ∀ (vs : List Entry) (i : Nat), (vs.map Entry.primary).Nodup →
      (vs.map (syncedEntry oracle (vs.filter (fun w => ankiFalsy w.ankiNoteID)) i)).filter
          (fun w => ankiFalsy w.ankiNoteID)
        = failedWords oracle (vs.filter (fun w => ankiFalsy w.ankiNoteID)) i := by
  intro vs
  induction vs with
  | nil => intro i _; rfl
  | cons e vs ih =>
    intro i hnodup
    have hem : e.primary ∉ vs.map Entry.primary := (List.nodup_cons.mp hnodup).1
    have hnd : (vs.map Entry.primary).Nodup := (List.nodup_cons.mp hnodup).2
    by_cases hf : ankiFalsy e.ankiNoteID = true
    · have hfil : (e :: vs).filter (fun w => ankiFalsy w.ankiNoteID)
          = e :: vs.filter (fun w => ankiFalsy w.ankiNoteID) := by
        simp [List.filter_cons, hf]
      rw [hfil]
      have hshift : vs.map (syncedEntry oracle
            (e :: vs.filter (fun w => ankiFalsy w.ankiNoteID)) i)
          = vs.map (syncedEntry oracle (vs.filter (fun w => ankiFalsy w.ankiNoteID)) (i + 1)) := by
        apply List.map_congr_left
        intro x hx
        apply syncedEntry_shift
        intro hxe
        exact hem (by rw [← hxe]; exact List.mem_map_of_mem Entry.primary hx)
      simp only [List.map_cons]
      rw [syncedEntry_head oracle e (vs.filter (fun w => ankiFalsy w.ankiNoteID)) i e rfl]
      rw [hshift]
      cases h : oracle i with
      | err =>
        simp only [applyOutcomeEntry, List.filter_cons, hf, if_pos]
        rw [ih (i + 1) hnd]
        simp [failedWords, h]
      | found noteId =>
        have hnz : noteId ≠ 0 := hids i noteId (Or.inl h)
        have : ankiFalsy ({ e with ankiNoteID := some noteId } : Entry).ankiNoteID = false := by
          simp [ankiFalsy, hnz]
        simp only [applyOutcomeEntry, List.filter_cons, this]
        rw [ih (i + 1) hnd]
        simp [failedWords, h]
      | notFound noteId =>
        have hnz : noteId ≠ 0 := hids i noteId (Or.inr h)
        have : ankiFalsy ({ e with ankiNoteID := some noteId } : Entry).ankiNoteID = false := by
          simp [ankiFalsy, hnz]
        simp only [applyOutcomeEntry, List.filter_cons, this]
        rw [ih (i + 1) hnd]
        simp [failedWords, h]
    · have hfil : (e :: vs).filter (fun w => ankiFalsy w.ankiNoteID)
          = vs.filter (fun w => ankiFalsy w.ankiNoteID) := by
        simp [List.filter_cons, hf]
      rw [hfil]
      have hnone : findPrimaryIdx e.primary (vs.filter (fun w => ankiFalsy w.ankiNoteID)) = none := by
        apply findPrimaryIdx_none_of_not_mem
        intro hm
        apply hem
        have hsub : List.Sublist ((vs.filter (fun w => ankiFalsy w.ankiNoteID)).map Entry.primary)
            (vs.map Entry.primary) := (List.filter_sublist vs).map Entry.primary
        exact hsub.mem hm
      simp only [List.map_cons]
      have hhead : syncedEntry oracle (vs.filter (fun w => ankiFalsy w.ankiNoteID)) i e = e := by
        simp [syncedEntry, hnone]
      rw [hhead]
      simp only [List.filter_cons, hf]
      rw [ih i hnd]
      simp

theorem wordsToSync_nil : wordsToSync [] = [] := rfl

theorem wordsToSync_perm {s t : Store} (h : s.Perm t) :
    (wordsToSync s).Perm (wordsToSync t) := by
  unfold wordsToSync storeValues
  exact (h.map Prod.snd).filter _

theorem cmd_sync_no_words (p : SyncProfile) (oracle : Nat → ExtOutcome)
    (decks₀ : List String) (s : Store) (h : wordsToSync s = []) :
    cmd_sync p oracle decks₀ true s = ⟨s, decks₀, ⟨0, 0, 0⟩, [], 0⟩ := by
  by_cases hs : s.isEmpty <;> simp [cmd_sync, hs, h]

theorem cmd_sync_run (p : SyncProfile) (oracle : Nat → ExtOutcome)
    (decks₀ : List String) (s : Store) (hws : wordsToSync s ≠ []) :
    cmd_sync p oracle decks₀ true s =
      let final := syncLoop p oracle (wordsToSync s) 0 ⟨s, decks₀, ⟨0, 0, 0⟩, []⟩
      ⟨save_vocab_data final.vocab, final.decks, final.counts, final.trace, 1⟩ := by
  have hs : ¬ s.isEmpty := by
    intro he
    exact hws (by rw [List.isEmpty_iff.mp he]; rfl)
  simp [cmd_sync, hs, hws]

theorem wordsToSync_nodup_primaries (s : Store) (hnodup : (primariesOf s).Nodup) :
    ((wordsToSync s).map Entry.primary).Nodup := by
  apply hnodup.sublist
  exact (List.filter_sublist (storeValues s)).map Entry.primary

theorem cmd_sync_counts_char (p : SyncProfile) (oracle : Nat → ExtOutcome)
    (decks₀ : List String) (s : Store) (hws : wordsToSync s ≠ []) :
    (cmd_sync p oracle decks₀ true s).counts = tallies oracle (wordsToSync s) 0 := by
  rw [cmd_sync_run p oracle decks₀ s hws]
  simp only [syncLoop_counts]
  simp [SyncCounts.add]

theorem cmd_sync_saves_one (p : SyncProfile) (oracle : Nat → ExtOutcome)
    (decks₀ : List String) (s : Store) (hws : wordsToSync s ≠ []) :
    (cmd_sync p oracle decks₀ true s).saves = 1 := by
  rw [cmd_sync_run p oracle decks₀ s hws]

theorem cmd_sync_store_char (p : SyncProfile) (oracle : Nat → ExtOutcome)
    (decks₀ : List String) (s : Store) (hnodup : (primariesOf s).Nodup)
    (hws : wordsToSync s ≠ []) :
    (cmd_sync p oracle decks₀ true s).store =
      save_vocab_data (s.map (fun kv =>
        (kv.1, syncedEntry oracle (wordsToSync s) 0 kv.2))) := by
  rw [cmd_sync_run p oracle decks₀ s hws]
  simp only
  rw [syncLoop_vocab]
  rw [applyOutcome_eq_map oracle (wordsToSync s) 0 s hnodup
    (wordsToSync_nodup_primaries s hnodup)]

theorem cmd_sync_retry_perm (p : SyncProfile) (oracle : Nat → ExtOutcome)
    (decks₀ : List String) (s : Store) (hnodup : (primariesOf s).Nodup)
    (hids : ∀ n noteId, oracle n = .found noteId ∨ oracle n = .notFound noteId → noteId ≠ 0)
    (hws : wordsToSync s ≠ []) :
    (wordsToSync (cmd_sync p oracle decks₀ true s).store).Perm
      (failedWords oracle (wordsToSync s) 0) := by
  rw [cmd_sync_store_char p oracle decks₀ s hnodup hws]
  apply (wordsToSync_perm (save_perm _)).trans
  have hmap : wordsToSync (s.map (fun kv =>
        (kv.1, syncedEntry oracle (wordsToSync s) 0 kv.2)))
      = ((storeValues s).map (syncedEntry oracle (wordsToSync s) 0)).filter
          (fun w => ankiFalsy w.ankiNoteID) := by
    simp [wordsToSync, storeValues, List.map_map]
    rfl
  have hw : wordsToSync s = (storeValues s).filter (fun w => ankiFalsy w.ankiNoteID) := rfl
  rw [hmap, hw]
  rw [map_synced_filter oracle hids (storeValues s) 0 hnodup]

/-- C1: during sync, every entry whose external call fails is tallied in
failed, its externalId stays null, and the loop continues (created, updated
and failed add up to the whole work list); the store is persisted exactly
once after the loop, and the work list a later sync would retry is exactly
the failing entries, unchanged.  Stated under the dedup invariant of the
store (pairwise distinct primary values) and for a service returning
nonzero note ids. -/
theorem sync_partial_failure_isolation
    (p : SyncProfile) (oracle : Nat → ExtOutcome) (decks₀ : List String) (s : Store)
    (hnodup : (primariesOf s).Nodup)
    (hids : ∀ n noteId, oracle n = .found noteId ∨ oracle n = .notFound noteId → noteId ≠ 0)
    (hws : wordsToSync s ≠ []) :
    (cmd_sync p oracle decks₀ true s).counts.failed
        = (failedWords oracle (wordsToSync s) 0).length
    ∧ (cmd_sync p oracle decks₀ true s).counts.created
        + (cmd_sync p oracle decks₀ true s).counts.updated
        + (cmd_sync p oracle decks₀ true s).counts.failed
        = (wordsToSync s).length
    ∧ (cmd_sync p oracle decks₀ true s).saves = 1
    ∧ (wordsToSync (cmd_sync p oracle decks₀ true s).store).Perm
        (failedWords oracle (wordsToSync s) 0) := by
  refine ⟨?_, ?_, cmd_sync_saves_one p oracle decks₀ s hws,
    cmd_sync_retry_perm p oracle decks₀ s hnodup hids hws⟩
  · rw [cmd_sync_counts_char p oracle decks₀ s hws, failedWords_length]
  · rw [cmd_sync_counts_char p oracle decks₀ s hws]
    exact tallies_total oracle (wordsToSync s) 0

def wEntryA : Entry :=
  { primary := "gauche", translation := "left", exampleText := "", exampleTranslation := "",
    grammar := "", phonetic := none, level := some (.vStr "A1"), hskLevel := none,
    cefrLevel := none, ankiNoteID := none, added := some "b" }

def wEntryB : Entry :=
  { primary := "droite", translation := "right", exampleText := "", exampleTranslation := "",
    grammar := "", phonetic := none, level := some (.vStr "A2"), hskLevel := none,
    cefrLevel := none, ankiNoteID := none, added := some "a" }

def wStore : Store := [("gauche", wEntryA), ("droite", wEntryB)]

def wProfile : SyncProfile :=
  { useLevels := true, deckPref := "French::CEFR ", deckName := none, special := [],
    defaultLevel := .vStr "A1" }

def wOracle : Nat → ExtOutcome := fun n => if n = 0 then .err else .notFound 100

theorem sync_partial_failure_isolation_witness :
    (cmd_sync wProfile wOracle [] true wStore).counts.failed
        = (failedWords wOracle (wordsToSync wStore) 0).length
    ∧ (cmd_sync wProfile wOracle [] true wStore).counts.created
        + (cmd_sync wProfile wOracle [] true wStore).counts.updated
        + (cmd_sync wProfile wOracle [] true wStore).counts.failed
        = (wordsToSync wStore).length
    ∧ (cmd_sync wProfile wOracle [] true wStore).saves = 1
    ∧ (wordsToSync (cmd_sync wProfile wOracle [] true wStore).store).Perm
        (failedWords wOracle (wordsToSync wStore) 0) := by
  apply sync_partial_failure_isolation wProfile wOracle [] wStore
  · decide
  · intro n noteId h
    by_cases hn : n = 0 <;> rcases h with h | h <;> simp [wOracle, hn] at h <;> omega
  · decide

/-- C2: a second sync right after a fully successful one, with no store edit
in between (the second run starts from the store exactly as the first run
persisted it), finds no unsynced entry and reports zero created and zero
updated. -/
theorem sync_idempotent
    (p : SyncProfile) (oracle₁ oracle₂ : Nat → ExtOutcome) (decks₀ decks₁ : List String)
    (s : Store)
    (hnodup : (primariesOf s).Nodup)
    (hids : ∀ n noteId, oracle₁ n = .found noteId ∨ oracle₁ n = .notFound noteId → noteId ≠ 0)
    (hnoerr : ∀ n, oracle₁ n ≠ .err) :
    (cmd_sync p oracle₂ decks₁ true (cmd_sync p oracle₁ decks₀ true s).store).counts.created = 0
    ∧ (cmd_sync p oracle₂ decks₁ true
        (cmd_sync p oracle₁ decks₀ true s).store).counts.updated = 0 := by
  by_cases hws : wordsToSync s = []
  · rw [cmd_sync_no_words p oracle₁ decks₀ s hws]
    show (cmd_sync p oracle₂ decks₁ true s).counts.created = 0
      ∧ (cmd_sync p oracle₂ decks₁ true s).counts.updated = 0
    rw [cmd_sync_no_words p oracle₂ decks₁ s hws]
    exact ⟨rfl, rfl⟩
  · have hperm := cmd_sync_retry_perm p oracle₁ decks₀ s hnodup hids hws
    rw [failedWords_nil_of_no_err oracle₁ hnoerr] at hperm
    rw [cmd_sync_no_words p oracle₂ decks₁ _ hperm.eq_nil]
    exact ⟨rfl, rfl⟩

def wOracleOk : Nat → ExtOutcome := fun _ => .notFound 100

theorem sync_idempotent_witness :
    (cmd_sync wProfile wOracleOk [] true
        (cmd_sync wProfile wOracleOk [] true wStore).store).counts.created = 0
    ∧ (cmd_sync wProfile wOracleOk [] true
        (cmd_sync wProfile wOracleOk [] true wStore).store).counts.updated = 0 := by
  apply sync_idempotent wProfile wOracleOk wOracleOk [] [] wStore
  · decide
  · intro n noteId h
    rcases h with h | h <;> simp [wOracleOk] at h <;> omega
  · intro n
    simp [wOracleOk]

def dupEntry1 : Entry :=
  { primary := "amie", translation := "friend", exampleText := "", exampleTranslation := "",
    grammar := "", phonetic := none, level := some (.vStr "A1"), hskLevel := none,
    cefrLevel := none, ankiNoteID := none, added := some "b" }

def dupEntry2 : Entry :=
  { primary := "amie", translation := "girlfriend", exampleText := "", exampleTranslation := "",
    grammar := "", phonetic := none, level := some (.vStr "A1"), hskLevel := none,
    cefrLevel := none, ankiNoteID := none, added := some "a" }

/-- A store holding two distinct entries that map to the same primary value,
reachable only through direct store edits. -/
def dupStore : Store := [("amie", dupEntry1), ("amie2", dupEntry2)]

/-- The service behaviour the claim describes: the first iteration creates
the card (id 100), the second finds that same card and takes the update
branch. -/
def dupOracle : Nat → ExtOutcome := fun n => if n = 0 then .notFound 100 else .found 100

/-- C3, counterexample: with two entries sharing a primary value, the update
branch of the second iteration does not attach the external id to both
entries.  The write-back scans the store and stops at the first entry whose
primary matches, so the id lands on the first entry twice and the second
entry keeps a null externalId, even though the update branch did run
(updated = 1). -/
theorem sync_duplicate_primary_counterexample :
    (cmd_sync wProfile dupOracle [] true dupStore).counts.created = 1
    ∧ (cmd_sync wProfile dupOracle [] true dupStore).counts.updated = 1
    ∧ (cmd_sync wProfile dupOracle [] true dupStore).counts.failed = 0
    ∧ dictLookup (cmd_sync wProfile dupOracle [] true dupStore).store "amie2"
        = some dupEntry2
    ∧ dupEntry2.ankiNoteID = none
    ∧ dictLookup (cmd_sync wProfile dupOracle [] true dupStore).store "amie"
        = some { dupEntry1 with ankiNoteID := some 100 } := by
  decide

/-- C3, amended: when two store entries map to the same primary value and
sync iterates over both (create outcome for the first iteration, update
outcome for the second), both write-backs land on the first matching entry
in store order: it ends up carrying the id of the second call, while the
second entry keeps a null externalId and remains in the work list of every
later sync. -/
theorem sync_duplicate_primary_first_entry
    (p : SyncProfile) (decks₀ : List String) (k1 k2 : String) (e1 e2 : Entry)
    (n m : Nat) (oracle : Nat → ExtOutcome)
    (h2 : e2.primary = e1.primary)
    (hn1 : e1.ankiNoteID = none) (hn2 : e2.ankiNoteID = none)
    (ho0 : oracle 0 = .notFound n) (ho1 : oracle 1 = .found m) (hm : m ≠ 0) :
    (cmd_sync p oracle decks₀ true [(k1, e1), (k2, e2)]).counts.created = 1
    ∧ (cmd_sync p oracle decks₀ true [(k1, e1), (k2, e2)]).counts.updated = 1
    ∧ (k1, { e1 with ankiNoteID := some m })
        ∈ (cmd_sync p oracle decks₀ true [(k1, e1), (k2, e2)]).store
    ∧ (k2, e2) ∈ (cmd_sync p oracle decks₀ true [(k1, e1), (k2, e2)]).store
    ∧ (wordsToSync (cmd_sync p oracle decks₀ true [(k1, e1), (k2, e2)]).store).Perm [e2] := by
  have hws : wordsToSync [(k1, e1), (k2, e2)] = [e1, e2] := by
    simp [wordsToSync, storeValues, ankiFalsy, hn1, hn2]
  have hne : wordsToSync [(k1, e1), (k2, e2)] ≠ [] := by rw [hws]; simp
  have hrun := cmd_sync_run p oracle decks₀ [(k1, e1), (k2, e2)] hne
  rw [hws] at hrun
  have hsfm1 : setFirstMatching [(k1, e1), (k2, e2)] e1.primary n
      = [(k1, { e1 with ankiNoteID := some n }), (k2, e2)] := by
    simp [setFirstMatching]
  have hsfm2 : setFirstMatching [(k1, { e1 with ankiNoteID := some n }), (k2, e2)] e2.primary m
      = [(k1, { e1 with ankiNoteID := some m }), (k2, e2)] := by
    simp [setFirstMatching, h2]
  have hvocab : (syncLoop p oracle [e1, e2] 0
        ⟨[(k1, e1), (k2, e2)], decks₀, ⟨0, 0, 0⟩, []⟩).vocab
      = [(k1, { e1 with ankiNoteID := some m }), (k2, e2)] := by
    rw [syncLoop_vocab]
    simp only [applyOutcome, ho0, ho1]
    rw [hsfm1, hsfm2]
  have hcounts : (syncLoop p oracle [e1, e2] 0
        ⟨[(k1, e1), (k2, e2)], decks₀, ⟨0, 0, 0⟩, []⟩).counts = ⟨1, 1, 0⟩ := by
    rw [syncLoop_counts]
    simp [tallies, ho0, ho1, SyncCounts.add]
  rw [hrun]
  simp only
  rw [hvocab, hcounts]
  refine ⟨rfl, rfl, ?_, ?_, ?_⟩
  · exact ((save_perm _).mem_iff).mpr (by simp)
  · exact ((save_perm _).mem_iff).mpr (by simp)
  · apply (wordsToSync_perm (save_perm _)).trans
    have : wordsToSync [(k1, { e1 with ankiNoteID := some m }), (k2, e2)] = [e2] := by
      simp [wordsToSync, storeValues, ankiFalsy, hn2, hm]
    rw [this]

theorem sync_duplicate_primary_first_entry_witness :
    (cmd_sync wProfile dupOracle [] true [("amie", dupEntry1), ("amie2", dupEntry2)]).counts.created = 1
    ∧ (cmd_sync wProfile dupOracle [] true [("amie", dupEntry1), ("amie2", dupEntry2)]).counts.updated = 1
    ∧ ("amie", { dupEntry1 with ankiNoteID := some 100 })
        ∈ (cmd_sync wProfile dupOracle [] true [("amie", dupEntry1), ("amie2", dupEntry2)]).store
    ∧ ("amie2", dupEntry2)
        ∈ (cmd_sync wProfile dupOracle [] true [("amie", dupEntry1), ("amie2", dupEntry2)]).store
    ∧ (wordsToSync (cmd_sync wProfile dupOracle [] true
        [("amie", dupEntry1), ("amie2", dupEntry2)]).store).Perm [dupEntry2] := by
  apply sync_duplicate_primary_first_entry wProfile [] "amie" "amie2" dupEntry1 dupEntry2
    100 100 dupOracle
  · decide
  · decide
  · decide
  · decide
  · decide
  · decide

/-- The Chinese-style level-partitioned profile of the failing input: special
levels 0 (Misc) and 9 (Expressions), default level 1, prefix Chinese::HSK. -/
def hskProfile : SyncProfile :=
  { useLevels := true, deckPref := "Chinese::HSK", deckName := none,
    special := [("0", "Misc"), ("9", "Expressions")], defaultLevel := .vInt 1 }

/-- An entry whose Level was stored as the integer 0, as cmd_new writes it
for a command line level 0. -/
def levelZeroEntry : Entry :=
  { primary := "um", translation := "um", exampleText := "", exampleTranslation := "",
    grammar := "", phonetic := none, level := some (.vInt 0), hskLevel := none,
    cefrLevel := none, ankiNoteID := none, added := none }

/-- C4: the level 0 of the entry is listed in the special-level table of the
profile (0 maps to Misc, as the comment right above the check in the source
spells out), yet deck resolution yields the default-level deck Chinese::HSK1
rather than the special deck Chinese::HSKMisc: the Python or-chain that
merges the legacy level fields treats the integer 0 as falsy and replaces it
with the profile default before the special-level check runs. -/
theorem sync_special_level_zero_bug :
    levelZeroEntry.level = some (PyVal.vInt 0)
    ∧ lookupSpecial hskProfile.special (PyVal.vInt 0).str = some "Misc"
    ∧ resolveDeck hskProfile levelZeroEntry = "Chinese::HSK1"
    ∧ resolveDeck hskProfile levelZeroEntry ≠ hskProfile.deckPref ++ "Misc" := by
  decide

theorem dictLookup_none_iff (k : String) :
    ∀ s : Store, dictLookup s k = none ↔ ∀ kv ∈ s, kv.1 ≠ k := by
  intro s
  induction s with
  | nil => simp [dictLookup]
  | cons kv rest ih =>
    obtain ⟨k', e⟩ := kv
    by_cases h : k' = k
    · simp [dictLookup, h]
    · simp [dictLookup, h, ih]

theorem dictLookup_isSome_of_mem_keys (k : String) :
    ∀ s : Store, k ∈ storeKeys s → (dictLookup s k).isSome := by
  intro s
  induction s with
  | nil => intro h; simp [storeKeys] at h
  | cons kv rest ih =>
    obtain ⟨k', e⟩ := kv
    intro h
    by_cases hk : k' = k
    · simp [dictLookup, hk]
    · simp [storeKeys] at h
      rcases h with h | h
      · exact absurd h.symm hk
      · simpa [dictLookup, hk] using ih (by simpa [storeKeys] using h)

theorem dictSet_fresh (k : String) (v : Entry) :
    ∀ s : Store, dictLookup s k = none → dictSet s k v = s ++ [(k, v)] := by
  intro s
  induction s with
  | nil => intro _; rfl
  | cons kv rest ih =>
    obtain ⟨k', e⟩ := kv
    intro h
    have hk : k' ≠ k := ((dictLookup_none_iff k _).mp h) (k', e) (by simp)
    have hrest : dictLookup rest k = none := by
      rw [dictLookup_none_iff]
      intro kv hkv
      exact ((dictLookup_none_iff k _).mp h) kv (by simp [hkv])
    simp [dictSet, hk, ih hrest]

theorem dictPop_append_fresh (k : String) (v : Entry) (s : Store)
    (h : dictLookup s k = none) : dictPop (s ++ [(k, v)]) k = s := by
  unfold dictPop
  rw [List.filter_append]
  have h1 : s.filter (fun kv => kv.1 ≠ k) = s := by
    rw [List.filter_eq_self]
    intro kv hkv
    simpa using ((dictLookup_none_iff k s).mp h) kv hkv
  have h2 : List.filter (fun kv => kv.1 ≠ k) [(k, v)] = [] := by
    simp
  rw [h1, h2, List.append_nil]

theorem mem_keys_dictSet (k : String) (v : Entry) :
    ∀ s : Store, k ∈ storeKeys (dictSet s k v) := by
  intro s
  induction s with
  | nil => simp [dictSet, storeKeys]
  | cons kv rest ih =>
    obtain ⟨k', e⟩ := kv
    by_cases hk : k' = k
    · simp [dictSet, hk, storeKeys]
    · simp only [dictSet, if_neg hk, storeKeys, List.map_cons, List.mem_cons]
      right
      simpa [storeKeys] using ih

theorem storeKeys_perm {s t : Store} (h : s.Perm t) : (storeKeys s).Perm (storeKeys t) :=
  h.map Prod.fst

/-- First new call of the C7 counterexample: adds bonjour to an empty store
and fills the undo slot. -/
def undoDemoRun1 : Store × Option LastAction × NewResult :=
  cmd_new true false false (.vStr "A1") "t1"
    (.ok ⟨some "bonjour", some "hello", none, none, none, none⟩) [] none

/-- Second new call of the C7 counterexample: the same word again, a guarded
already-exists no-op that leaves the earlier undo record in place. -/
def undoDemoRun2 : Store × Option LastAction × NewResult :=
  cmd_new true false false (.vStr "A1") "t2"
    (.ok ⟨some "bonjour", some "hello", none, none, none, none⟩)
    undoDemoRun1.1 undoDemoRun1.2.1

/-- C7, counterexample: a store state reached through the CLI alone on which
new immediately followed by undo does not preserve the key set.  After a
successful new for bonjour, a second new for the same word is an
already-exists no-op that leaves both the store (key set [bonjour]) and the
earlier undo record untouched; the undo that immediately follows replays
that record and removes bonjour, leaving an empty store, so the key set
differs from its state before the new call. -/
theorem new_then_undo_counterexample :
    undoDemoRun2.2.2 = .alreadyExists
    ∧ storeKeys undoDemoRun2.1 = ["bonjour"]
    ∧ undoDemoRun2.2.1 = some { type := some "new", key := some "bonjour" }
    ∧ (cmd_undo undoDemoRun2.1 undoDemoRun2.2.1).1 = []
    ∧ (cmd_undo undoDemoRun2.1 undoDemoRun2.2.1).2.2 = .undone := by
  decide

/-- C7, amended: a new command (without force) immediately followed by undo
leaves the store with the same keys as before the new call, and a second
consecutive undo reports nothing to undo, provided the new call succeeded
(the lookup key was fresh) or the undo slot was empty beforehand.  When the
lookup key is fresh the new call succeeds and the undo removes exactly that
key, whatever the slot held before; when the key already exists the new call
is a guarded no-op, so the property holds only when the slot was empty — in
the remaining case the undo replays the stale record, as the counterexample
shows. -/
theorem new_then_undo_exact
    (ci hp : Bool) (level : PyVal) (now : String) (ai : AiPayload) (pk : String)
    (store : Store) (slot : Option LastAction)
    (hpk : ai.primary = some pk) (hne : pk ≠ "")
    (hcase : dictLookup store (lookupKeyOf ci pk) = none ∨ slot = none) :
    (storeKeys (cmd_undo (cmd_new ci hp false level now (.ok ai) store slot).1
        (cmd_new ci hp false level now (.ok ai) store slot).2.1).1).Perm (storeKeys store)
    ∧ (cmd_undo
        (cmd_undo (cmd_new ci hp false level now (.ok ai) store slot).1
          (cmd_new ci hp false level now (.ok ai) store slot).2.1).1
        (cmd_undo (cmd_new ci hp false level now (.ok ai) store slot).1
          (cmd_new ci hp false level now (.ok ai) store slot).2.1).2.1).2.2
      = .nothingToUndo := by
  by_cases hl : dictLookup store (lookupKeyOf ci pk) = none
  · have hstep1 : cmd_new ci hp false level now (.ok ai) store slot
        = (save_vocab_data (dictSet store (lookupKeyOf ci pk) (mkEntry hp pk ai level now)),
           some { type := some "new", key := some (lookupKeyOf ci pk) }, .added) := by
      simp [cmd_new, hpk, hne, hl]
    rw [hstep1]
    have hkne : lookupKeyOf ci pk ≠ "" := lookupKeyOf_ne_empty ci hne
    have hkmem : lookupKeyOf ci pk ∈ storeKeys (save_vocab_data
        (dictSet store (lookupKeyOf ci pk) (mkEntry hp pk ai level now))) := by
      have hperm := storeKeys_perm (save_perm
        (dictSet store (lookupKeyOf ci pk) (mkEntry hp pk ai level now)))
      exact hperm.mem_iff.mpr (mem_keys_dictSet (lookupKeyOf ci pk) _ store)
    have hsome := dictLookup_isSome_of_mem_keys (lookupKeyOf ci pk) _ hkmem
    have hstep2 : cmd_undo (save_vocab_data (dictSet store (lookupKeyOf ci pk)
          (mkEntry hp pk ai level now)))
        (some { type := some "new", key := some (lookupKeyOf ci pk) })
        = (save_vocab_data (dictPop (save_vocab_data (dictSet store (lookupKeyOf ci pk)
            (mkEntry hp pk ai level now))) (lookupKeyOf ci pk)), none, .undone) := by
      simp [cmd_undo, hkne, hsome]
    simp only at hstep2 ⊢
    rw [hstep2]
    constructor
    · apply (storeKeys_perm (save_perm _)).trans
      have hpop : (dictPop (save_vocab_data (dictSet store (lookupKeyOf ci pk)
            (mkEntry hp pk ai level now))) (lookupKeyOf ci pk)).Perm store := by
        have h1 : (dictPop (save_vocab_data (dictSet store (lookupKeyOf ci pk)
              (mkEntry hp pk ai level now))) (lookupKeyOf ci pk)).Perm
            (dictPop (dictSet store (lookupKeyOf ci pk) (mkEntry hp pk ai level now))
              (lookupKeyOf ci pk)) := by
          unfold dictPop
          exact (save_perm _).filter _
        apply h1.trans
        rw [dictSet_fresh (lookupKeyOf ci pk) _ store hl,
          dictPop_append_fresh (lookupKeyOf ci pk) _ store hl]
      exact storeKeys_perm hpop
    · rfl
  · rcases hcase with hcase | hcase
    · exact absurd hcase hl
    · have hsome : (dictLookup store (lookupKeyOf ci pk)).isSome := by
        cases h : dictLookup store (lookupKeyOf ci pk) with
        | none => exact absurd h hl
        | some e => rfl
      have hstep1 : cmd_new ci hp false level now (.ok ai) store slot
          = (store, slot, .alreadyExists) := by
        simp [cmd_new, hpk, hne, hsome]
      rw [hstep1, hcase]
      exact ⟨List.Perm.refl _, rfl⟩

theorem new_then_undo_exact_witness :
    (storeKeys (cmd_undo
        (cmd_new true false false (.vStr "A1") "t1"
          (.ok ⟨some "Bonjour", some "hello", none, none, none, none⟩) [] none).1
        (cmd_new true false false (.vStr "A1") "t1"
          (.ok ⟨some "Bonjour", some "hello", none, none, none, none⟩) [] none).2.1).1).Perm
      (storeKeys [])
    ∧ (cmd_undo
        (cmd_undo (cmd_new true false false (.vStr "A1") "t1"
            (.ok ⟨some "Bonjour", some "hello", none, none, none, none⟩) [] none).1
          (cmd_new true false false (.vStr "A1") "t1"
            (.ok ⟨some "Bonjour", some "hello", none, none, none, none⟩) [] none).2.1).1
        (cmd_undo (cmd_new true false false (.vStr "A1") "t1"
            (.ok ⟨some "Bonjour", some "hello", none, none, none, none⟩) [] none).1
          (cmd_new true false false (.vStr "A1") "t1"
            (.ok ⟨some "Bonjour", some "hello", none, none, none, none⟩) [] none).2.1).2.1).2.2
      = .nothingToUndo := by
  apply new_then_undo_exact true false (.vStr "A1") "t1"
    ⟨some "Bonjour", some "hello", none, none, none, none⟩ "Bonjour" [] none
  · rfl
  · decide
  · left; rfl

def bonjourPayload1 : AiPayload := ⟨some "Bonjour", some "hello", none, none, none, none⟩

def bonjourPayload2 : AiPayload := ⟨some "bonjour", some "hello", none, none, none, none⟩

/-- First new call of the C5 scenario, on an empty store. -/
def bonjourRun1 : Store × Option LastAction × NewResult :=
  cmd_new true false false (.vStr "A1") "t1" (.ok bonjourPayload1) [] none

/-- Second new call of the C5 scenario, for the lowercase variant, on the
store and slot the first call left. -/
def bonjourRun2 : Store × Option LastAction × NewResult :=
  cmd_new true false false (.vStr "A1") "t2" (.ok bonjourPayload2) bonjourRun1.1 bonjourRun1.2.1

/-- C5: a new command whose lookup key (lowercased primary iff the
case-insensitive flag) already exists is a guarded no-op without force
(store and slot unchanged, already-exists reported) and an unconditional
replacement with force; in particular the Bonjour / bonjour scenario on a
case-insensitive profile ends with exactly one entry. -/
theorem new_duplicate_key_guard :
    (∀ (ci hp : Bool) (level : PyVal) (now : String) (ai : AiPayload) (pk : String)
        (store : Store) (slot : Option LastAction),
        ai.primary = some pk → pk ≠ "" →
        (dictLookup store (lookupKeyOf ci pk)).isSome →
        cmd_new ci hp false level now (.ok ai) store slot = (store, slot, .alreadyExists))
    ∧ (∀ (ci hp : Bool) (level : PyVal) (now : String) (ai : AiPayload) (pk : String)
        (store : Store) (slot : Option LastAction),
        ai.primary = some pk → pk ≠ "" →
        cmd_new ci hp true level now (.ok ai) store slot
          = (save_vocab_data (dictSet store (lookupKeyOf ci pk) (mkEntry hp pk ai level now)),
             some { type := some "new", key := some (lookupKeyOf ci pk) }, .added))
    ∧ bonjourRun1.1.length = 1
    ∧ bonjourRun2.2.2 = .alreadyExists
    ∧ bonjourRun2.1.length = 1
    ∧ bonjourRun2.1 = bonjourRun1.1 := by
  refine ⟨?_, ?_, by decide, by decide, by decide, by decide⟩
  · intro ci hp level now ai pk store slot hpk hne hsome
    simp [cmd_new, hpk, hne, hsome]
  · intro ci hp level now ai pk store slot hpk hne
    simp [cmd_new, hpk, hne]

theorem new_duplicate_key_guard_witness :
    cmd_new true false false (.vStr "A1") "t2" (.ok bonjourPayload2) bonjourRun1.1 bonjourRun1.2.1
      = (bonjourRun1.1, bonjourRun1.2.1, .alreadyExists) := by
  exact new_duplicate_key_guard.1 true false (.vStr "A1") "t2" bonjourPayload2 "bonjour"
    bonjourRun1.1 bonjourRun1.2.1 rfl (by decide) (by decide)

/-- C6, counterexample: a non-empty undo slot whose action type is not new
fails with nothing-to-undo but is NOT cleared, and an immediately repeated
undo fails the same way again, refuting the claim that both failure cases
clear the slot. -/
theorem undo_slot_not_cleared_counterexample :
    cmd_undo [] (some { type := some "sync", key := some "bonjour" })
      = ([], some { type := some "sync", key := some "bonjour" }, .nothingToUndo)
    ∧ some { type := some "sync", key := some "bonjour" } ≠ (none : Option LastAction)
    ∧ (cmd_undo (cmd_undo [] (some { type := some "sync", key := some "bonjour" })).1
        (cmd_undo [] (some { type := some "sync", key := some "bonjour" })).2.1).2.2
      = .nothingToUndo := by
  decide

/-- C6, amended: undo reads the single slot; a new action whose key is in
the store removes that key and clears the slot; an empty or non-new slot
fails with nothing-to-undo and the slot is left exactly as it was (so only
the trivially empty case is clear afterwards); a new action whose key is no
longer in the store fails, and only this stale failure clears the slot so
that it cannot repeat. -/
theorem undo_behavior_amended :
    (∀ store : Store, cmd_undo store none = (store, none, .nothingToUndo))
    ∧ (∀ (store : Store) (a : LastAction), a.type ≠ some "new" →
        cmd_undo store (some a) = (store, some a, .nothingToUndo))
    ∧ (∀ (store : Store) (a : LastAction) (k : String), a.type = some "new" →
        a.key = some k → k ≠ "" → dictLookup store k = none →
        cmd_undo store (some a) = (store, none, .staleCleared))
    ∧ (∀ (store : Store) (a : LastAction) (k : String), a.type = some "new" →
        a.key = some k → k ≠ "" → (dictLookup store k).isSome →
        cmd_undo store (some a) = (save_vocab_data (dictPop store k), none, .undone)) := by
  refine ⟨fun store => rfl, ?_, ?_, ?_⟩
  · intro store a h
    simp [cmd_undo, h]
  · intro store a k ht hk hne hnone
    simp [cmd_undo, ht, hk, hne, hnone]
  · intro store a k ht hk hne hsome
    simp [cmd_undo, ht, hk, hne, hsome]

theorem undo_behavior_amended_witness :
    cmd_undo [] (some { type := some "new", key := some "bonjour" })
      = ([], none, .staleCleared) := by
  exact undo_behavior_amended.2.2.1 [] { type := some "new", key := some "bonjour" }
    "bonjour" rfl rfl (by decide) rfl

/-- C10: whenever new fails after starting (the enrichment call raised, for
instance because no API key is configured, or the payload has no or an empty
primary field), the command returns with the store and the undo slot exactly
as they were: no partial entry and no overwritten undo record. -/
theorem new_failure_leaves_state :
    (∀ (ci hp force : Bool) (level : PyVal) (now msg : String) (store : Store)
        (slot : Option LastAction),
        cmd_new ci hp force level now (.error msg) store slot = (store, slot, .errored))
    ∧ (∀ (ci hp force : Bool) (level : PyVal) (now : String) (ai : AiPayload)
        (store : Store) (slot : Option LastAction),
        ai.primary = none ∨ ai.primary = some "" →
        cmd_new ci hp force level now (.ok ai) store slot = (store, slot, .errored))
    ∧ (∀ (ci hp force : Bool) (level : PyVal) (now : String) (resp : Option AiPayload)
        (store : Store) (slot : Option LastAction),
        cmd_new ci hp force level now (enrich_with_ai none resp) store slot
          = (store, slot, .errored))
    ∧ (∀ (ci hp force : Bool) (level : PyVal) (now : String) (resp : Option AiPayload)
        (store : Store) (slot : Option LastAction),
        cmd_new ci hp force level now (enrich_with_ai (some "") resp) store slot
          = (store, slot, .errored)) := by
  refine ⟨fun _ _ _ _ _ _ _ _ => rfl, ?_, fun _ _ _ _ _ _ _ _ => rfl,
    fun _ _ _ _ _ _ _ _ => rfl⟩
  intro ci hp force level now ai store slot h
  rcases h with h | h <;> simp [cmd_new, h]

theorem new_failure_leaves_state_witness :
    cmd_new true false false (.vStr "A1") "t1"
        (.ok ⟨none, some "hello", none, none, none, none⟩) [("bonjour", demoEntry)]
        (some { type := some "new", key := some "bonjour" })
      = ([("bonjour", demoEntry)], some { type := some "new", key := some "bonjour" },
         .errored) := by
  exact new_failure_leaves_state.2.1 true false false (.vStr "A1") "t1"
    ⟨none, some "hello", none, none, none, none⟩ [("bonjour", demoEntry)]
    (some { type := some "new", key := some "bonjour" }) (Or.inl rfl)

/-- C8, counterexample: the overwrite is not atomic relative to readers.
The write truncates the file in place before streaming the document, so the
observable sequence of file states contains a state that is neither the old
document nor the new one; a concurrent load at that moment yields an empty
(or partial, hence malformed) store rather than either document. -/
theorem save_not_atomic_counterexample :
    ¬ atomicToReaders (.doc [("bonjour", demoEntry)]) [("bonjour", demoEntry)] := by
  decide

/-- C8, amended: save writes the full mapping re-sorted by addedAt
descending (a permutation of the in-memory mapping, sorted descending on the
added key, default 1970-01-01), and the final observable file state is the
complete new document; but the overwrite is an in-place truncate-then-write,
so whenever the previous state was not itself malformed, a reader can
observe an intermediate state that is neither the old nor the new
document. -/
theorem save_sorted_amended (s : Store) (old : FileState) :
    List.Sorted entryGe (save_vocab_data s)
    ∧ (save_vocab_data s).Perm s
    ∧ (save_states old s).getLast? = some (.doc (save_vocab_data s))
    ∧ (old ≠ .malformed → ¬ atomicToReaders old s) := by
  refine ⟨save_sorted s, save_perm s, rfl, ?_⟩
  intro hold hat
  have h := hat .malformed (by simp [save_states])
  rcases h with h | h
  · exact hold h.symm
  · cases h

theorem save_sorted_amended_witness :
    (FileState.missing ≠ FileState.malformed)
    ∧ List.Sorted entryGe (save_vocab_data [("bonjour", demoEntry)])
    ∧ (save_vocab_data [("bonjour", demoEntry)]).Perm [("bonjour", demoEntry)]
    ∧ (save_states .missing [("bonjour", demoEntry)]).getLast?
        = some (.doc (save_vocab_data [("bonjour", demoEntry)]))
    ∧ ¬ atomicToReaders .missing [("bonjour", demoEntry)] := by
  have h := save_sorted_amended [("bonjour", demoEntry)] .missing
  exact ⟨by decide, h.1, h.2.1, h.2.2.1, h.2.2.2 (by decide)⟩

/-- C9: a load of an unmodified persisted document followed by a save
reproduces the document exactly (the stable descending sort is idempotent,
and the document codec is deterministic, so the persisted bytes agree); and
load returns the empty mapping both for a missing file and for a malformed
one. -/
theorem load_save_roundtrip (M : Store) :
    save_vocab_data (load_vocab_data (.doc (save_vocab_data M))) = save_vocab_data M
    ∧ load_vocab_data .missing = []
    ∧ load_vocab_data .malformed = [] := by
  refine ⟨?_, rfl, rfl⟩
  show save_vocab_data (save_vocab_data M) = save_vocab_data M
  exact save_idem M
